import Mathlib

/-!
# Verification of the schema-migration runner (`src/db/migrator.py`)

This file shallowly embeds the migration runner of the repository:

* `Migration` mirrors the frozen dataclass `Migration(id, description, upgrade)`.
* `DbState` models the observable database state the migrator touches:
  the `schema_migrations` tracking table (its column definitions, when created,
  and its rows, a list of applied ids) and the column list of the `users` table.
* `ensureMigrationsTable` embeds `_ensure_migrations_table` (CREATE TABLE IF NOT
  EXISTS with `id VARCHAR(255) PRIMARY KEY, applied_at TIMESTAMPTZ NOT NULL
  DEFAULT NOW()`).
* `migration0001AddChannelSubscriptionFields` embeds
  `_migration_0001_add_channel_subscription_fields`: it introspects the live
  `users` columns and emits an additive `ALTER TABLE ... ADD COLUMN` only for
  each of the three target columns that is absent.
* `runMigrationsWith` embeds the loop of `run_database_migrations`,
  parameterised by the registry list; `run_database_migrations` instantiates it
  at the module-level registry `MIGRATIONS`.  Each pending migration runs inside
  a savepoint (`connection.begin_nested()`): the upgrade action executes, then
  the applied-revision row is inserted; on any exception the savepoint rolls
  the scope back and the exception is re-raised (`raise exc`), aborting the run.
  The runner additionally emits a trace of `Event`s so that ordering,
  single-load and write-discipline properties are expressible.
* A small two-process interleaving model (`procStep`, `raceRun`) makes the
  cross-process race behaviour of §5 of the spec statable: each process runs
  the same runner step by step against the shared database, the savepoint
  scope of one migration being one atomic step.
-/

namespace Migrator

/-- SQL column types occurring in the migrator's DDL. -/
inductive SqlType where
  | varchar (n : Nat)
  | text
  | timestamptz
  | boolean
  | bigint
deriving DecidableEq, Repr

/-- One column definition of a created table: name, type, and the
primary-key / NOT NULL / server-side default attributes. -/
structure ColumnDef where
  name : String
  sqlType : SqlType
  primaryKey : Bool
  notNull : Bool
  defaultExpr : Option String
deriving DecidableEq, Repr

/-- The columns of the `schema_migrations` table exactly as the DDL in
`_ensure_migrations_table` creates them:
`id VARCHAR(255) PRIMARY KEY, applied_at TIMESTAMPTZ NOT NULL DEFAULT NOW()`. -/
def schemaMigrationsColumns : List ColumnDef :=
  [ { name := "id", sqlType := .varchar 255, primaryKey := true,
      notNull := true, defaultExpr := none },
    { name := "applied_at", sqlType := .timestamptz, primaryKey := false,
      notNull := true, defaultExpr := some "NOW()" } ]

/-- Errors surfaced by the database driver to the migrator. -/
inductive DbError where
  | uniqueViolation (table : String) (id : String)
  | duplicateColumn (table : String) (column : String)
  | failure (msg : String)
deriving DecidableEq, Repr

/-- The observable database state: whether/how the `schema_migrations` table
exists (with its column definitions), its rows (the applied ids, in insertion
order), and the columns of the `users` table. -/
structure DbState where
  migrationsTable : Option (List ColumnDef)
  appliedIds : List String
  usersColumns : List String
deriving DecidableEq, Repr

/-- Embeds `_ensure_migrations_table`: `CREATE TABLE IF NOT EXISTS` creates the
empty tracking table with `schemaMigrationsColumns` when absent and does
nothing when the table already exists. -/
def ensureMigrationsTable (s : DbState) : DbState :=
  match s.migrationsTable with
  | some _ => s
  | none => { s with migrationsTable := some schemaMigrationsColumns, appliedIds := [] }

/-- An upgrade action: runs against the connection and returns the state after
whatever statements it managed to execute, plus the raised error if it failed
partway (the savepoint in the runner is what discards the partial state). -/
abbrev Upgrade := DbState → DbState × Option DbError

/-- Embeds the frozen dataclass `Migration`. -/
structure Migration where
  id : String
  description : String
  upgrade : Upgrade

/-- The single kind of SQL statement migration 0001 emits. -/
inductive Stmt where
  | alterUsersAddColumn (name : String) (sqlType : SqlType)
deriving DecidableEq, Repr

/-- Executing one statement: `ALTER TABLE users ADD COLUMN ...` appends the
column, or fails with the driver's "already exists" error when present. -/
def execStmt (s : DbState) : Stmt → DbState × Option DbError
  | .alterUsersAddColumn name _ =>
    if name ∈ s.usersColumns then (s, some (.duplicateColumn "users" name))
    else ({ s with usersColumns := s.usersColumns ++ [name] }, none)

/-- Executing a statement list sequentially, stopping at the first error and
returning the partial state reached. -/
def execStmts (s : DbState) : List Stmt → DbState × Option DbError
  | [] => (s, none)
  | stmt :: rest =>
    match execStmt s stmt with
    | (s1, none) => execStmts s1 rest
    | (s1, some e) => (s1, some e)

/-- The statement list `_migration_0001_add_channel_subscription_fields`
builds from the introspected `users` columns: one additive ALTER per target
column not already present, in source order. -/
def migration0001Statements (columns : List String) : List Stmt :=
  (if "channel_subscription_verified" ∈ columns then []
   else [.alterUsersAddColumn "channel_subscription_verified" .boolean]) ++
  (if "channel_subscription_checked_at" ∈ columns then []
   else [.alterUsersAddColumn "channel_subscription_checked_at" .timestamptz]) ++
  (if "channel_subscription_verified_for" ∈ columns then []
   else [.alterUsersAddColumn "channel_subscription_verified_for" .bigint])

/-- Embeds `_migration_0001_add_channel_subscription_fields`: introspect the
live `users` columns, then execute the guarded statement list. -/
def migration0001AddChannelSubscriptionFields : Upgrade := fun s =>
  execStmts s (migration0001Statements s.usersColumns)

/-- The single `Migration(...)` record the source registry holds. -/
def migration0001 : Migration :=
  { id := "0001_add_channel_subscription_fields",
    description := "Add columns to track required channel subscription verification",
    upgrade := migration0001AddChannelSubscriptionFields }

/-- The module-level registry `MIGRATIONS` of the source. -/
def MIGRATIONS : List Migration := [migration0001]

/-- Executor-level events, recorded so that ordering and write-discipline are
observable.  `updateRecord`/`deleteRecord` are the store operations the runner
could in principle perform but never does. -/
inductive Event where
  | ensureTable
  | loadApplied
  | beginScope (id : String)
  | upgradeStart (id : String)
  | upgradeEnd (id : String)
  | insertApplied (id : String)
  | commitScope (id : String)
  | rollbackScope (id : String)
  | updateRecord (id : String)
  | deleteRecord (id : String)
deriving DecidableEq, Repr

/-- Result of one `run_database_migrations` call: the database state on return,
the event trace, and the exception propagated to the caller, if any. -/
structure RunResult where
  state : DbState
  trace : List Event
  error : Option DbError
deriving DecidableEq, Repr

/-- The events of one successfully committed savepoint scope for id `i`. -/
def scopeEvents (i : String) : List Event :=
  [.beginScope i, .upgradeStart i, .upgradeEnd i, .insertApplied i, .commitScope i]

/-- The events of a savepoint scope for id `i` that failed and rolled back. -/
def failEvents (i : String) : List Event :=
  [.beginScope i, .upgradeStart i, .rollbackScope i]

/-- One savepoint scope (`with connection.begin_nested():`): run the upgrade,
then `INSERT INTO schema_migrations (id) VALUES (:revision)`.  On an upgrade
error or a unique-constraint violation of the insert, the savepoint rolls the
whole scope back (the input state is returned unchanged) and the error is the
exception the runner re-raises. -/
def applyScope (m : Migration) (s : DbState) : DbState × Option DbError :=
  match m.upgrade s with
  | (_, some e) => (s, some e)
  | (s1, none) =>
    if m.id ∈ s1.appliedIds then
      (s, some (.uniqueViolation "schema_migrations" m.id))
    else
      ({ s1 with appliedIds := s1.appliedIds ++ [m.id] }, none)

/-- The `for migration in MIGRATIONS:` loop of `run_database_migrations`,
iterating over the registry with the once-loaded applied set: already applied
ids are skipped; otherwise the savepoint scope runs, and any exception aborts
the run immediately (`raise exc`) with the scope rolled back. -/
def runLoop (applied : List String) : List Migration → DbState → RunResult
  | [], s => { state := s, trace := [], error := none }
  | m :: rest, s =>
    if m.id ∈ applied then runLoop applied rest s
    else
      match applyScope m s with
      | (_, some e) => { state := s, trace := failEvents m.id, error := some e }
      | (s2, none) =>
        let r := runLoop applied rest s2
        { state := r.state, trace := scopeEvents m.id ++ r.trace, error := r.error }

/-- The body of `run_database_migrations`, parameterised by the registry list:
ensure the tracking table, load the applied ids once
(`SELECT id FROM schema_migrations`), then iterate the registry in order. -/
def runMigrationsWith (migs : List Migration) (s : DbState) : RunResult :=
  let s0 := ensureMigrationsTable s
  let r := runLoop s0.appliedIds migs s0
  { state := r.state, trace := .ensureTable :: .loadApplied :: r.trace, error := r.error }

/-- Embeds `run_database_migrations`: the loop applied to the module-level
registry `MIGRATIONS`. -/
def run_database_migrations (s : DbState) : RunResult :=
  runMigrationsWith MIGRATIONS s

/-- Looks up the type of a named column in a column-definition list. -/
def columnType (cols : List ColumnDef) (n : String) : Option SqlType :=
  (cols.find? (fun c => c.name == n)).map (fun c => c.sqlType)

/-! ## Two-process interleaving model (§5 of the spec)

Two replicas invoke `run_database_migrations` concurrently against the same
database on separate connections.  Each process runs the same runner, broken
into atomic steps: ensure the table, load the applied set, then one step per
registry entry (skip, or run the whole savepoint scope — whose effects become
visible to the other process at its commit). -/

/-- The phase one process's `run` invocation is in. -/
inductive ProcPhase where
  | start
  | ensured
  | loaded (applied : List String) (pending : List Migration)
  | finished
  | failed (e : DbError)

/-- Terminal observation of a process: `some none` means `run` returned
normally, `some (some e)` means it raised `e`, `none` means still running. -/
def ProcPhase.outcome : ProcPhase → Option (Option DbError)
  | .finished => some none
  | .failed e => some (some e)
  | _ => none

/-- One atomic step of one process's `run` invocation against the shared
database. -/
def procStep (migs : List Migration) (db : DbState) : ProcPhase → DbState × ProcPhase
  | .start => (ensureMigrationsTable db, .ensured)
  | .ensured => (db, .loaded db.appliedIds migs)
  | .loaded _ [] => (db, .finished)
  | .loaded applied (m :: rest) =>
    if m.id ∈ applied then (db, .loaded applied rest)
    else
      match applyScope m db with
      | (_, some e) => (db, .failed e)
      | (db', none) => (db', .loaded applied rest)
  | .finished => (db, .finished)
  | .failed e => (db, .failed e)

/-- The shared database together with both processes' phases. -/
structure RaceState where
  db : DbState
  procA : ProcPhase
  procB : ProcPhase

/-- One scheduler step: `false` steps process A, `true` steps process B. -/
def raceStep (migs : List Migration) (st : RaceState) (pickB : Bool) : RaceState :=
  if pickB then
    let (db, p) := procStep migs st.db st.procB
    { db := db, procA := st.procA, procB := p }
  else
    let (db, p) := procStep migs st.db st.procA
    { db := db, procA := p, procB := st.procB }

/-- Run a schedule of interleaved steps. -/
def raceRun (migs : List Migration) (sched : List Bool) (st : RaceState) : RaceState :=
  sched.foldl (raceStep migs) st

/-- The canonical racing schedule: both processes ensure the table and load an
empty applied set, then A commits the migration, B attempts it and A finishes. -/
def raceSchedule : List Bool := [false, false, true, true, false, true, false]

/-! ## Basic lemmas about the store bootstrap and migration 0001 -/

theorem ensureMigrationsTable_of_some {s : DbState} {cols : List ColumnDef}
    (h : s.migrationsTable = some cols) : ensureMigrationsTable s = s := by
  unfold ensureMigrationsTable
  rw [h]

theorem ensureMigrationsTable_isSome (s : DbState) :
    (ensureMigrationsTable s).migrationsTable.isSome := by
  unfold ensureMigrationsTable
  cases h : s.migrationsTable <;> simp [h]

theorem ensureMigrationsTable_idem (s : DbState) :
    ensureMigrationsTable (ensureMigrationsTable s) = ensureMigrationsTable s := by
  unfold ensureMigrationsTable
  cases h : s.migrationsTable <;> simp [h]

theorem migration0001_upgrade :
    migration0001.upgrade = migration0001AddChannelSubscriptionFields := rfl

theorem migration0001_id :
    migration0001.id = "0001_add_channel_subscription_fields" := rfl

/-- Characterisation of migration 0001: it never raises, and it appends to the
`users` columns exactly the target columns that were absent, in source order. -/
theorem migration0001_eq (s : DbState) :
    migration0001AddChannelSubscriptionFields s =
      ({ s with usersColumns := s.usersColumns ++
          ((if "channel_subscription_verified" ∈ s.usersColumns then []
            else ["channel_subscription_verified"]) ++
           (if "channel_subscription_checked_at" ∈ s.usersColumns then []
            else ["channel_subscription_checked_at"]) ++
           (if "channel_subscription_verified_for" ∈ s.usersColumns then []
            else ["channel_subscription_verified_for"])) }, none) := by
  by_cases h1 : "channel_subscription_verified" ∈ s.usersColumns <;>
    by_cases h2 : "channel_subscription_checked_at" ∈ s.usersColumns <;>
      by_cases h3 : "channel_subscription_verified_for" ∈ s.usersColumns <;>
        simp [migration0001AddChannelSubscriptionFields, migration0001Statements,
          execStmts, execStmt, h1, h2, h3]

/-- Migration 0001 leaves the tracking table and its rows untouched. -/
theorem migration0001_frame (s : DbState) :
    ((migration0001AddChannelSubscriptionFields s).1).appliedIds = s.appliedIds ∧
    ((migration0001AddChannelSubscriptionFields s).1).migrationsTable = s.migrationsTable := by
  rw [migration0001_eq]
  exact ⟨rfl, rfl⟩

/-- Migration 0001 never raises. -/
theorem migration0001_ok (s : DbState) :
    (migration0001AddChannelSubscriptionFields s).2 = none := by
  rw [migration0001_eq]

/-- After migration 0001 all three target columns are present. -/
theorem migration0001_mem (s : DbState) :
    "channel_subscription_verified" ∈ ((migration0001AddChannelSubscriptionFields s).1).usersColumns ∧
    "channel_subscription_checked_at" ∈ ((migration0001AddChannelSubscriptionFields s).1).usersColumns ∧
    "channel_subscription_verified_for" ∈ ((migration0001AddChannelSubscriptionFields s).1).usersColumns := by
  rw [migration0001_eq]
  refine ⟨?_, ?_, ?_⟩ <;>
    · simp only [List.mem_append]
      by_cases h1 : "channel_subscription_verified" ∈ s.usersColumns <;>
        by_cases h2 : "channel_subscription_checked_at" ∈ s.usersColumns <;>
          by_cases h3 : "channel_subscription_verified_for" ∈ s.usersColumns <;>
            simp [h1, h2, h3]

/-- With all three target columns already present, migration 0001 is a no-op:
it emits no statement and returns the state unchanged, without error. -/
theorem migration0001_noop (s : DbState)
    (h1 : "channel_subscription_verified" ∈ s.usersColumns)
    (h2 : "channel_subscription_checked_at" ∈ s.usersColumns)
    (h3 : "channel_subscription_verified_for" ∈ s.usersColumns) :
    migration0001Statements s.usersColumns = [] ∧
    migration0001AddChannelSubscriptionFields s = (s, none) := by
  constructor
  · simp [migration0001Statements, h1, h2, h3]
  · rw [migration0001_eq]
    simp [h1, h2, h3]

/-- The savepoint scope of migration 0001 on a state where its id is not yet
recorded: the upgrade succeeds and the revision row is appended. -/
theorem applyScope_migration0001 (s : DbState)
    (hmem : migration0001.id ∉ s.appliedIds) :
    applyScope migration0001 s =
      ({ (migration0001.upgrade s).1 with
          appliedIds := s.appliedIds ++ [migration0001.id] }, none) := by
  have hpair : migration0001.upgrade s = ((migration0001.upgrade s).1, none) := by
    rw [← migration0001_ok s]
    rfl
  have hfr := migration0001_frame s
  rw [← migration0001_upgrade] at hfr
  have hmem1 : migration0001.id ∉ ((migration0001.upgrade s).1).appliedIds := by
    rw [hfr.1]
    exact hmem
  unfold applyScope
  rw [hpair]
  dsimp only
  rw [if_neg hmem1, hfr.1]

/-- The savepoint scope of migration 0001 on a state where its id is already
recorded (and the columns already exist, as a concurrent winner leaves them):
the upgrade is a no-op and the record-insert raises the unique-constraint
violation, rolling the scope back. -/
theorem applyScope_migration0001_dup (s : DbState)
    (hmem : migration0001.id ∈ s.appliedIds)
    (h1 : "channel_subscription_verified" ∈ s.usersColumns)
    (h2 : "channel_subscription_checked_at" ∈ s.usersColumns)
    (h3 : "channel_subscription_verified_for" ∈ s.usersColumns) :
    applyScope migration0001 s =
      (s, some (DbError.uniqueViolation "schema_migrations" migration0001.id)) := by
  have hnoop : migration0001.upgrade s = (s, none) := by
    rw [migration0001_upgrade]
    exact (migration0001_noop s h1 h2 h3).2
  unfold applyScope
  rw [hnoop]
  dsimp only
  rw [if_pos hmem]

/-! ## Unfolding lemmas for the executor loop -/

theorem runLoop_nil (applied : List String) (s : DbState) :
    runLoop applied [] s = { state := s, trace := [], error := none } := rfl

theorem runLoop_cons_skip {applied : List String} {m : Migration}
    (h : m.id ∈ applied) (rest : List Migration) (s : DbState) :
    runLoop applied (m :: rest) s = runLoop applied rest s := by
  simp [runLoop, h]

theorem runLoop_cons_fail {applied : List String} {m : Migration} {e : DbError}
    {s : DbState} (h : m.id ∉ applied)
    (hf : (applyScope m s).2 = some e) (rest : List Migration) :
    runLoop applied (m :: rest) s =
      { state := s, trace := failEvents m.id, error := some e } := by
  have hsc : applyScope m s = ((applyScope m s).1, some e) := by
    rw [← hf]
  simp only [runLoop, if_neg h]
  rw [hsc]

theorem runLoop_cons_ok {applied : List String} {m : Migration} {s s2 : DbState}
    (h : m.id ∉ applied) (hok : applyScope m s = (s2, none))
    (rest : List Migration) :
    runLoop applied (m :: rest) s =
      { state := (runLoop applied rest s2).state,
        trace := scopeEvents m.id ++ (runLoop applied rest s2).trace,
        error := (runLoop applied rest s2).error } := by
  simp only [runLoop, if_neg h]
  rw [hok]

/-- Running a registry split as `pre ++ rest` when the prefix succeeds is the
prefix run followed by the `rest` run from the prefix's final state. -/
theorem runLoop_append (applied : List String) (pre rest : List Migration)
    (s : DbState) (h : (runLoop applied pre s).error = none) :
    runLoop applied (pre ++ rest) s =
      { state := (runLoop applied rest (runLoop applied pre s).state).state,
        trace := (runLoop applied pre s).trace ++
          (runLoop applied rest (runLoop applied pre s).state).trace,
        error := (runLoop applied rest (runLoop applied pre s).state).error } := by
  induction pre generalizing s with
  | nil => simp [runLoop_nil]
  | cons m pre ih =>
    by_cases hm : m.id ∈ applied
    · rw [List.cons_append]
      simp only [runLoop_cons_skip hm]
      exact ih s (by rwa [runLoop_cons_skip hm] at h)
    · rcases hsc : applyScope m s with ⟨s2, e⟩
      cases e with
      | some err =>
        rw [runLoop_cons_fail hm (by rw [hsc]) pre] at h
        simp at h
      | none =>
        have h2 : (runLoop applied pre s2).error = none := by
          rw [runLoop_cons_ok hm hsc pre] at h
          exact h
        rw [List.cons_append]
        simp only [runLoop_cons_ok hm hsc]
        rw [ih s2 h2]
        simp

/-- A failing run decomposes as: a successfully committed prefix, then one
scope that fails and rolls back, after which nothing further happens — the
final state is the prefix's state and the trace ends at the failing scope. -/
theorem runLoop_fail_decomp (applied : List String) (migs : List Migration)
    (s : DbState) (e : DbError) (h : (runLoop applied migs s).error = some e) :
    ∃ pre m post, migs = pre ++ m :: post ∧
      m.id ∉ applied ∧
      (runLoop applied pre s).error = none ∧
      (applyScope m (runLoop applied pre s).state).2 = some e ∧
      (runLoop applied migs s).state = (runLoop applied pre s).state ∧
      (runLoop applied migs s).trace = (runLoop applied pre s).trace ++ failEvents m.id := by
  induction migs generalizing s with
  | nil => simp [runLoop_nil] at h
  | cons m rest ih =>
    by_cases hm : m.id ∈ applied
    · rw [runLoop_cons_skip hm rest s] at h
      obtain ⟨pre, mm, post, hsplit, hnm, hpre, hsc, hst, htr⟩ := ih s h
      refine ⟨m :: pre, mm, post, by rw [hsplit, List.cons_append], hnm, ?_, ?_, ?_, ?_⟩ <;>
        simp only [runLoop_cons_skip hm] <;>
          first
            | exact hpre
            | exact hsc
            | exact hst
            | exact htr
    · rcases hsc : applyScope m s with ⟨s2, eo⟩
      cases eo with
      | some err =>
        rw [runLoop_cons_fail hm (by rw [hsc]) rest] at h
        simp only [Option.some.injEq] at h
        subst h
        refine ⟨[], m, rest, rfl, hm, by simp [runLoop_nil], by simp [runLoop_nil, hsc], ?_, ?_⟩ <;>
          rw [runLoop_cons_fail hm (by rw [hsc]) rest] <;> simp [runLoop_nil]
      | none =>
        rw [runLoop_cons_ok hm hsc rest] at h
        obtain ⟨pre, mm, post, hsplit, hnm, hpre, hsc2, hst, htr⟩ := ih s2 h
        refine ⟨m :: pre, mm, post, by rw [hsplit, List.cons_append], hnm, ?_, ?_, ?_, ?_⟩ <;>
          simp only [runLoop_cons_ok hm hsc]
        · exact hpre
        · exact hsc2
        · exact hst
        · rw [htr, List.append_assoc]

/-! ## Trace structure lemmas -/

/-- The trace a fully successful loop iteration produces: one committed scope
block per registry entry that is not in the loaded applied set. -/
def expectedEvents (applied : List String) : List Migration → List Event
  | [] => []
  | m :: rest =>
    (if m.id ∈ applied then [] else scopeEvents m.id) ++ expectedEvents applied rest

theorem runLoop_success_trace (applied : List String) (migs : List Migration)
    (s : DbState) (h : (runLoop applied migs s).error = none) :
    (runLoop applied migs s).trace = expectedEvents applied migs := by
  induction migs generalizing s with
  | nil => simp [runLoop_nil, expectedEvents]
  | cons m rest ih =>
    by_cases hm : m.id ∈ applied
    · rw [runLoop_cons_skip hm rest s] at h ⊢
      rw [ih s h]
      simp [expectedEvents, hm]
    · rcases hsc : applyScope m s with ⟨s2, eo⟩
      cases eo with
      | some err =>
        rw [runLoop_cons_fail hm (by rw [hsc]) rest] at h
        simp at h
      | none =>
        rw [runLoop_cons_ok hm hsc rest] at h ⊢
        simp only at h
        rw [ih s2 h]
        simp [expectedEvents, hm]

/-- Every event the loop emits belongs to some scope block (committed or
rolled back); in particular the loop never emits `ensureTable`, `loadApplied`,
`updateRecord` or `deleteRecord` events. -/
theorem runLoop_trace_shape (applied : List String) (migs : List Migration)
    (s : DbState) :
    ∀ ev ∈ (runLoop applied migs s).trace,
      ∃ i, ev ∈ scopeEvents i ∨ ev ∈ failEvents i := by
  induction migs generalizing s with
  | nil => simp [runLoop_nil]
  | cons m rest ih =>
    by_cases hm : m.id ∈ applied
    · rw [runLoop_cons_skip hm rest s]
      exact ih s
    · rcases hsc : applyScope m s with ⟨s2, eo⟩
      cases eo with
      | some err =>
        rw [runLoop_cons_fail hm (by rw [hsc]) rest]
        intro ev hev
        exact ⟨m.id, Or.inr hev⟩
      | none =>
        rw [runLoop_cons_ok hm hsc rest]
        intro ev hev
        rcases List.mem_append.mp hev with hl | hr
        · exact ⟨m.id, Or.inl hl⟩
        · exact ih s2 ev hr

theorem runLoop_no_ensure (applied : List String) (migs : List Migration)
    (s : DbState) : Event.ensureTable ∉ (runLoop applied migs s).trace := by
  intro hmem
  obtain ⟨i, h | h⟩ := runLoop_trace_shape applied migs s _ hmem <;>
    simp [scopeEvents, failEvents] at h

theorem runLoop_no_load (applied : List String) (migs : List Migration)
    (s : DbState) : Event.loadApplied ∉ (runLoop applied migs s).trace := by
  intro hmem
  obtain ⟨i, h | h⟩ := runLoop_trace_shape applied migs s _ hmem <;>
    simp [scopeEvents, failEvents] at h

theorem runLoop_no_update_delete (applied : List String) (migs : List Migration)
    (s : DbState) (i : String) :
    Event.updateRecord i ∉ (runLoop applied migs s).trace ∧
    Event.deleteRecord i ∉ (runLoop applied migs s).trace := by
  constructor <;>
    · intro hmem
      obtain ⟨j, h | h⟩ := runLoop_trace_shape applied migs s _ hmem <;>
        simp [scopeEvents, failEvents] at h

/-- Scans a trace and checks that every `insertApplied` event sits inside its
own scope: immediately after the successful end of the same id's upgrade and
immediately before the commit of the same scope. -/
def insertsScoped : List Event → Bool
  | .upgradeEnd i :: .insertApplied j :: .commitScope k :: rest =>
    i == j && j == k && insertsScoped rest
  | .insertApplied _ :: _ => false
  | _ :: rest => insertsScoped rest
  | [] => true

theorem insertsScoped_scope_append (i : String) (tr : List Event) :
    insertsScoped (scopeEvents i ++ tr) = insertsScoped tr := by
  simp [scopeEvents, insertsScoped]

theorem insertsScoped_fail_append (i : String) (tr : List Event) :
    insertsScoped (failEvents i ++ tr) = insertsScoped tr := by
  simp [failEvents, insertsScoped]

theorem insertsScoped_expectedEvents (applied : List String)
    (migs : List Migration) : insertsScoped (expectedEvents applied migs) = true := by
  induction migs with
  | nil => simp [expectedEvents, insertsScoped]
  | cons m rest ih =>
    by_cases hm : m.id ∈ applied <;>
      simp [expectedEvents, hm, insertsScoped_scope_append, ih]

/-- How often one committed scope block mentions an `insertApplied` event. -/
theorem count_insertApplied_scopeEvents (x i : String) :
    (scopeEvents i).count (Event.insertApplied x) = if x = i then 1 else 0 := by
  by_cases h : x = i <;> simp [scopeEvents, List.count_cons, h]

theorem mem_insertApplied_expectedEvents (applied : List String)
    (migs : List Migration) (i : String)
    (h : Event.insertApplied i ∈ expectedEvents applied migs) :
    i ∉ applied ∧ ∃ m ∈ migs, m.id = i := by
  induction migs with
  | nil => simp [expectedEvents] at h
  | cons m rest ih =>
    by_cases hm : m.id ∈ applied
    · simp only [expectedEvents, if_pos hm, List.nil_append] at h
      obtain ⟨hi, mm, hmm, hid⟩ := ih h
      exact ⟨hi, mm, List.mem_cons_of_mem _ hmm, hid⟩
    · simp only [expectedEvents, if_neg hm, List.mem_append] at h
      rcases h with hl | hr
      · simp only [scopeEvents, List.mem_cons, List.not_mem_nil, or_false] at hl
        have hi : i = m.id := by
          rcases hl with h | h | h | h | h <;> simp_all
        exact ⟨hi ▸ hm, m, List.mem_cons_self _ _, hi.symm ▸ rfl⟩
      · obtain ⟨hi, mm, hmm, hid⟩ := ih hr
        exact ⟨hi, mm, List.mem_cons_of_mem _ hmm, hid⟩

theorem count_insertApplied_expectedEvents (applied : List String)
    (migs : List Migration) (hnd : (migs.map Migration.id).Nodup) :
    ∀ m ∈ migs, m.id ∉ applied →
      (expectedEvents applied migs).count (Event.insertApplied m.id) = 1 := by
  induction migs with
  | nil => simp
  | cons m0 rest ih =>
    intro m hm hni
    have hnd' : (rest.map Migration.id).Nodup := (List.nodup_cons.mp hnd).2
    have hm0 : m0.id ∉ rest.map Migration.id := (List.nodup_cons.mp hnd).1
    rcases List.mem_cons.mp hm with rfl | hmr
    · rw [expectedEvents, if_neg hni, List.count_append,
        count_insertApplied_scopeEvents, if_pos rfl]
      have hzero : (expectedEvents applied rest).count (Event.insertApplied m.id) = 0 := by
        rw [List.count_eq_zero]
        intro hmem
        obtain ⟨-, mm, hmm, hid⟩ := mem_insertApplied_expectedEvents applied rest _ hmem
        exact hm0 (hid ▸ List.mem_map_of_mem Migration.id hmm)
      omega
    · have hne : m.id ≠ m0.id := by
        intro he
        exact hm0 (he ▸ List.mem_map_of_mem Migration.id hmr)
      by_cases h0 : m0.id ∈ applied
      · rw [expectedEvents, if_pos h0, List.nil_append]
        exact ih hnd' m hmr hni
      · rw [expectedEvents, if_neg h0, List.count_append,
          count_insertApplied_scopeEvents, if_neg hne, ih hnd' m hmr hni]

theorem runMigrationsWith_def (migs : List Migration) (s : DbState) :
    runMigrationsWith migs s =
      { state := (runLoop (ensureMigrationsTable s).appliedIds migs (ensureMigrationsTable s)).state,
        trace := Event.ensureTable :: Event.loadApplied ::
          (runLoop (ensureMigrationsTable s).appliedIds migs (ensureMigrationsTable s)).trace,
        error := (runLoop (ensureMigrationsTable s).appliedIds migs (ensureMigrationsTable s)).error } := rfl

theorem runMigrationsWith_error (migs : List Migration) (s : DbState) :
    (runMigrationsWith migs s).error =
      (runLoop (ensureMigrationsTable s).appliedIds migs (ensureMigrationsTable s)).error := rfl

theorem runMigrationsWith_state (migs : List Migration) (s : DbState) :
    (runMigrationsWith migs s).state =
      (runLoop (ensureMigrationsTable s).appliedIds migs (ensureMigrationsTable s)).state := rfl

theorem runMigrationsWith_trace (migs : List Migration) (s : DbState) :
    (runMigrationsWith migs s).trace =
      Event.ensureTable :: Event.loadApplied ::
        (runLoop (ensureMigrationsTable s).appliedIds migs (ensureMigrationsTable s)).trace := rfl

/-! ## Concrete fixtures used to instantiate the hypothesis-bearing theorems -/

/-- An empty database: no tracking table yet, empty `users` column list. -/
def emptyDb : DbState := { migrationsTable := none, appliedIds := [], usersColumns := [] }

/-- A `users` table that already has all three target columns. -/
def allColsDb : DbState :=
  { migrationsTable := none, appliedIds := [],
    usersColumns := ["channel_subscription_verified", "channel_subscription_checked_at",
      "channel_subscription_verified_for"] }

/-- An upgrade action that does nothing and succeeds. -/
def noopUpgrade : Upgrade := fun s => (s, none)

/-- An upgrade action that raises (without effects) on every invocation. -/
def boomUpgrade : Upgrade := fun s => (s, some (.failure "boom"))

def migNoopA : Migration := { id := "a", description := "noop a", upgrade := noopUpgrade }

def migNoopB : Migration := { id := "b", description := "noop b", upgrade := noopUpgrade }

def migNoopC : Migration := { id := "c", description := "noop c", upgrade := noopUpgrade }

def migFailFirst : Migration :=
  { id := "0002_first", description := "first failing migration", upgrade := boomUpgrade }

def migFailSecond : Migration :=
  { id := "0003_second", description := "second failing migration", upgrade := boomUpgrade }

/-! ## Claims -/

/-- C10: when the `users` table already contains all three target columns
(`channel_subscription_verified`, `channel_subscription_checked_at`,
`channel_subscription_verified_for`), migration 0001's upgrade action builds
an empty statement list — it executes zero SQL statements, performing only
schema introspection — and returns the database state entirely unchanged,
with no error. -/
theorem migration0001_noop_when_all_columns_present (s : DbState)
    (h1 : "channel_subscription_verified" ∈ s.usersColumns)
    (h2 : "channel_subscription_checked_at" ∈ s.usersColumns)
    (h3 : "channel_subscription_verified_for" ∈ s.usersColumns) :
    migration0001Statements s.usersColumns = [] ∧
    migration0001AddChannelSubscriptionFields s = (s, none) :=
  migration0001_noop s h1 h2 h3

/-- Witness for C10: the concrete state `allColsDb` has all three columns and
migration 0001 leaves it untouched. -/
theorem migration0001_noop_when_all_columns_present_witness :
    ("channel_subscription_verified" ∈ allColsDb.usersColumns ∧
     "channel_subscription_checked_at" ∈ allColsDb.usersColumns ∧
     "channel_subscription_verified_for" ∈ allColsDb.usersColumns) ∧
    (migration0001Statements allColsDb.usersColumns = [] ∧
     migration0001AddChannelSubscriptionFields allColsDb = (allColsDb, none)) :=
  ⟨⟨by decide, by decide, by decide⟩,
   migration0001_noop_when_all_columns_present allColsDb (by decide) (by decide) (by decide)⟩

/-- C8 counterexample: the claim says the tracking table is created with `id`
as TEXT primary key, but the DDL in `_ensure_migrations_table` creates `id`
with SQL type VARCHAR(255), which is not TEXT. -/
theorem ensure_id_column_is_not_text :
    ((ensureMigrationsTable emptyDb).migrationsTable.map
      (fun cols => columnType cols "id")) = some (some (SqlType.varchar 255)) ∧
    SqlType.varchar 255 ≠ SqlType.text := by
  constructor
  · rfl
  · decide

/-- C8 (amended): `ensureExists` is idempotent (safe to call on every run,
creating the tracking table only if absent) and creates the table with `id`
as a VARCHAR(255) primary key and `applied_at` as a TIMESTAMPTZ NOT NULL
column defaulted server-side to NOW(). -/
theorem ensure_idempotent_creates_varchar_schema (s : DbState)
    (h : s.migrationsTable = none) :
    ensureMigrationsTable (ensureMigrationsTable s) = ensureMigrationsTable s ∧
    (ensureMigrationsTable s).migrationsTable = some schemaMigrationsColumns ∧
    columnType schemaMigrationsColumns "id" = some (SqlType.varchar 255) ∧
    ((schemaMigrationsColumns.find? fun c => c.name == "id").map
      ColumnDef.primaryKey) = some true ∧
    ((schemaMigrationsColumns.find? fun c => c.name == "applied_at").map
      ColumnDef.sqlType) = some SqlType.timestamptz ∧
    ((schemaMigrationsColumns.find? fun c => c.name == "applied_at").map
      ColumnDef.notNull) = some true ∧
    ((schemaMigrationsColumns.find? fun c => c.name == "applied_at").map
      ColumnDef.defaultExpr) = some (some "NOW()") := by
  refine ⟨ensureMigrationsTable_idem s, ?_, by decide, by decide, by decide, by decide, by decide⟩
  unfold ensureMigrationsTable
  rw [h]

/-- Witness for the amended C8 at the concrete empty database. -/
theorem ensure_idempotent_creates_varchar_schema_witness :
    emptyDb.migrationsTable = none ∧
    (ensureMigrationsTable (ensureMigrationsTable emptyDb) = ensureMigrationsTable emptyDb ∧
     (ensureMigrationsTable emptyDb).migrationsTable = some schemaMigrationsColumns ∧
     columnType schemaMigrationsColumns "id" = some (SqlType.varchar 255) ∧
     ((schemaMigrationsColumns.find? fun c => c.name == "id").map
       ColumnDef.primaryKey) = some true ∧
     ((schemaMigrationsColumns.find? fun c => c.name == "applied_at").map
       ColumnDef.sqlType) = some SqlType.timestamptz ∧
     ((schemaMigrationsColumns.find? fun c => c.name == "applied_at").map
       ColumnDef.notNull) = some true ∧
     ((schemaMigrationsColumns.find? fun c => c.name == "applied_at").map
       ColumnDef.defaultExpr) = some (some "NOW()")) :=
  ⟨rfl, ensure_idempotent_creates_varchar_schema emptyDb rfl⟩

/-- C6: invoking migration 0001's upgrade action twice in a row (a retried
Descriptor) raises no "already exists" error in either invocation, the second
invocation changes nothing, and the resulting `users` schema holds exactly one
instance of each of the three new columns. -/
theorem migration0001_retry_produces_single_columns (s : DbState)
    (hnd : s.usersColumns.Nodup) :
    (migration0001AddChannelSubscriptionFields s).2 = none ∧
    migration0001AddChannelSubscriptionFields
        ((migration0001AddChannelSubscriptionFields s).1) =
      ((migration0001AddChannelSubscriptionFields s).1, none) ∧
    ((migration0001AddChannelSubscriptionFields s).1).usersColumns.count
      "channel_subscription_verified" = 1 ∧
    ((migration0001AddChannelSubscriptionFields s).1).usersColumns.count
      "channel_subscription_checked_at" = 1 ∧
    ((migration0001AddChannelSubscriptionFields s).1).usersColumns.count
      "channel_subscription_verified_for" = 1 := by
  obtain ⟨hm1, hm2, hm3⟩ := migration0001_mem s
  refine ⟨migration0001_ok s, (migration0001_noop _ hm1 hm2 hm3).2, ?_, ?_, ?_⟩ <;>
    · rw [migration0001_eq]
      by_cases h1 : "channel_subscription_verified" ∈ s.usersColumns <;>
        by_cases h2 : "channel_subscription_checked_at" ∈ s.usersColumns <;>
          by_cases h3 : "channel_subscription_verified_for" ∈ s.usersColumns <;>
            simp [h1, h2, h3, List.count_append, List.count_cons,
              List.count_eq_one_of_mem hnd, List.count_eq_zero.mpr, h1, h2, h3,
              List.count_eq_zero]

/-- Witness for C6 at the concrete empty `users` table. -/
theorem migration0001_retry_produces_single_columns_witness :
    emptyDb.usersColumns.Nodup ∧
    ((migration0001AddChannelSubscriptionFields emptyDb).2 = none ∧
     migration0001AddChannelSubscriptionFields
         ((migration0001AddChannelSubscriptionFields emptyDb).1) =
       ((migration0001AddChannelSubscriptionFields emptyDb).1, none) ∧
     ((migration0001AddChannelSubscriptionFields emptyDb).1).usersColumns.count
       "channel_subscription_verified" = 1 ∧
     ((migration0001AddChannelSubscriptionFields emptyDb).1).usersColumns.count
       "channel_subscription_checked_at" = 1 ∧
     ((migration0001AddChannelSubscriptionFields emptyDb).1).usersColumns.count
       "channel_subscription_verified_for" = 1) :=
  ⟨by decide, migration0001_retry_produces_single_columns emptyDb (by decide)⟩

/-- C7: on every invocation, `run` first ensures the tracking table exists and
then loads the applied-id set, in that order and before anything else; each of
the two happens exactly once in the whole run — in particular the applied set
is never re-read during the iteration. -/
theorem run_ensures_then_loads_exactly_once (migs : List Migration) (s : DbState) :
    (runMigrationsWith migs s).trace.take 2 = [Event.ensureTable, Event.loadApplied] ∧
    (runMigrationsWith migs s).trace.count Event.ensureTable = 1 ∧
    (runMigrationsWith migs s).trace.count Event.loadApplied = 1 := by
  unfold runMigrationsWith
  refine ⟨rfl, ?_, ?_⟩ <;>
    simp [List.count_cons, List.count_eq_zero.mpr (runLoop_no_ensure _ migs _),
      List.count_eq_zero.mpr (runLoop_no_load _ migs _)]

/-- C5: for any three Descriptors none of which is in the loaded applied set,
a successful run produces the two bootstrap events followed by `d1`'s entire
committed scope, then `d2`'s, then `d3`'s: `d1`'s upgrade ends strictly before
`d2`'s is invoked and `d2`'s strictly before `d3`'s — the Executor applies the
Registry strictly in order, with no reordering, skipping ahead, or
interleaving. -/
theorem run_applies_in_registry_order (d1 d2 d3 : Migration) (s : DbState)
    (h1 : d1.id ∉ (ensureMigrationsTable s).appliedIds)
    (h2 : d2.id ∉ (ensureMigrationsTable s).appliedIds)
    (h3 : d3.id ∉ (ensureMigrationsTable s).appliedIds)
    (hok : (runMigrationsWith [d1, d2, d3] s).error = none) :
    (runMigrationsWith [d1, d2, d3] s).trace =
      [Event.ensureTable, Event.loadApplied] ++
        scopeEvents d1.id ++ scopeEvents d2.id ++ scopeEvents d3.id := by
  rw [runMigrationsWith_error] at hok
  rw [runMigrationsWith_trace, runLoop_success_trace _ _ _ hok]
  simp [expectedEvents, h1, h2, h3]

/-- Witness for C5: three fresh no-op Descriptors on the empty database. -/
theorem run_applies_in_registry_order_witness :
    (migNoopA.id ∉ (ensureMigrationsTable emptyDb).appliedIds ∧
     migNoopB.id ∉ (ensureMigrationsTable emptyDb).appliedIds ∧
     migNoopC.id ∉ (ensureMigrationsTable emptyDb).appliedIds ∧
     (runMigrationsWith [migNoopA, migNoopB, migNoopC] emptyDb).error = none) ∧
    (runMigrationsWith [migNoopA, migNoopB, migNoopC] emptyDb).trace =
      [Event.ensureTable, Event.loadApplied] ++
        scopeEvents migNoopA.id ++ scopeEvents migNoopB.id ++ scopeEvents migNoopC.id :=
  ⟨⟨by decide, by decide, by decide, by decide⟩,
   run_applies_in_registry_order migNoopA migNoopB migNoopC emptyDb
     (by decide) (by decide) (by decide) (by decide)⟩

/-- C3: when a Descriptor's upgrade action or record-insert fails during a
run, that Descriptor's savepoint scope is rolled back — the run's final state
is exactly the state left by the successfully committed prefix of the
Registry, so the failing Descriptor's upgrade effects and its Applied-Revision
record do not persist while earlier Descriptors' commits do — and the trace
ends at the failing scope's rollback: no later Descriptor is attempted. -/
theorem run_failure_rolls_back_and_aborts (migs : List Migration) (s : DbState)
    (e : DbError) (h : (runMigrationsWith migs s).error = some e) :
    ∃ pre m post, migs = pre ++ m :: post ∧
      m.id ∉ (ensureMigrationsTable s).appliedIds ∧
      (runMigrationsWith pre s).error = none ∧
      (applyScope m (runMigrationsWith pre s).state).2 = some e ∧
      (runMigrationsWith migs s).state = (runMigrationsWith pre s).state ∧
      (runMigrationsWith migs s).trace =
        (runMigrationsWith pre s).trace ++ failEvents m.id := by
  rw [runMigrationsWith_error] at h
  obtain ⟨pre, m, post, hsplit, hnm, hpre, hsc, hst, htr⟩ :=
    runLoop_fail_decomp _ _ _ _ h
  refine ⟨pre, m, post, hsplit, hnm, ?_, ?_, ?_, ?_⟩
  · rw [runMigrationsWith_error]; exact hpre
  · rw [runMigrationsWith_state]; exact hsc
  · rw [runMigrationsWith_state, runMigrationsWith_state]; exact hst
  · rw [runMigrationsWith_trace, runMigrationsWith_trace, htr]; rfl

/-- Witness for C3: a registry whose second Descriptor always fails, run on
the empty database. -/
theorem run_failure_rolls_back_and_aborts_witness :
    (runMigrationsWith [migNoopA, migFailFirst, migNoopB] emptyDb).error =
      some (DbError.failure "boom") ∧
    ∃ pre m post, [migNoopA, migFailFirst, migNoopB] = pre ++ m :: post ∧
      m.id ∉ (ensureMigrationsTable emptyDb).appliedIds ∧
      (runMigrationsWith pre emptyDb).error = none ∧
      (applyScope m (runMigrationsWith pre emptyDb).state).2 = some (DbError.failure "boom") ∧
      (runMigrationsWith [migNoopA, migFailFirst, migNoopB] emptyDb).state =
        (runMigrationsWith pre emptyDb).state ∧
      (runMigrationsWith [migNoopA, migFailFirst, migNoopB] emptyDb).trace =
        (runMigrationsWith pre emptyDb).trace ++ failEvents m.id :=
  ⟨by decide,
   run_failure_rolls_back_and_aborts [migNoopA, migFailFirst, migNoopB] emptyDb
     (DbError.failure "boom") (by decide)⟩

/-- C2 counterexample: no `MigrationError` wrapper exists — `run` re-raises
the bare underlying cause.  Two registries whose failing Descriptors differ in
id and description produce the identical error value, so no reading of the
raised error can recover the failing Descriptor's id: the claim that the
error wraps the id and description is false. -/
theorem run_error_wraps_no_descriptor_identity :
    (runMigrationsWith [migFailFirst] emptyDb).error = some (DbError.failure "boom") ∧
    (runMigrationsWith [migFailSecond] emptyDb).error = some (DbError.failure "boom") ∧
    migFailFirst.id ≠ migFailSecond.id ∧
    migFailFirst.description ≠ migFailSecond.description ∧
    ¬ ∃ f : DbError → String, ∀ (m : Migration) (s : DbState) (e : DbError),
        (runMigrationsWith [m] s).error = some e → f e = m.id := by
  refine ⟨by decide, by decide, by decide, by decide, ?_⟩
  rintro ⟨f, hf⟩
  have ha := hf migFailFirst emptyDb (DbError.failure "boom") (by decide)
  have hb := hf migFailSecond emptyDb (DbError.failure "boom") (by decide)
  exact absurd (ha.symm.trans hb) (by decide)

/-- C2 (amended): when some Descriptor's application fails, `run` fails by
re-raising the first failing scope's underlying cause itself, unchanged and
unwrapped (the failing Descriptor's id and description are only logged); when
no pending Descriptor's scope fails — every Descriptor applies or is already
applied — `run` returns normally. -/
theorem run_raises_first_underlying_cause (migs : List Migration) (s : DbState) :
    (∀ e, (runMigrationsWith migs s).error = some e →
      ∃ pre m post, migs = pre ++ m :: post ∧
        (runMigrationsWith pre s).error = none ∧
        m.id ∉ (ensureMigrationsTable s).appliedIds ∧
        (applyScope m (runMigrationsWith pre s).state).2 = some e) ∧
    ((∀ pre m post, migs = pre ++ m :: post →
        (runMigrationsWith pre s).error = none →
        m.id ∉ (ensureMigrationsTable s).appliedIds →
        (applyScope m (runMigrationsWith pre s).state).2 = none) →
      (runMigrationsWith migs s).error = none) := by
  constructor
  · intro e h
    rw [runMigrationsWith_error] at h
    obtain ⟨pre, m, post, hsplit, hnm, hpre, hsc, -, -⟩ := runLoop_fail_decomp _ _ _ _ h
    exact ⟨pre, m, post, hsplit, by rw [runMigrationsWith_error]; exact hpre, hnm,
      by rw [runMigrationsWith_state]; exact hsc⟩
  · intro hall
    cases herr : (runMigrationsWith migs s).error with
    | none => rfl
    | some e =>
      rw [runMigrationsWith_error] at herr
      obtain ⟨pre, m, post, hsplit, hnm, hpre, hsc, -, -⟩ := runLoop_fail_decomp _ _ _ _ herr
      have := hall pre m post hsplit (by rw [runMigrationsWith_error]; exact hpre) hnm
      rw [runMigrationsWith_state] at this
      rw [this] at hsc
      cases hsc

/-- Witness for the amended C2: a single always-failing Descriptor on the
empty database; `run`'s error is that Descriptor's own raised cause. -/
theorem run_raises_first_underlying_cause_witness :
    ((runMigrationsWith [migFailFirst] emptyDb).error = some (DbError.failure "boom")) ∧
    ∃ pre m post, [migFailFirst] = pre ++ m :: post ∧
      (runMigrationsWith pre emptyDb).error = none ∧
      m.id ∉ (ensureMigrationsTable emptyDb).appliedIds ∧
      (applyScope m (runMigrationsWith pre emptyDb).state).2 =
        some (DbError.failure "boom") :=
  ⟨by decide,
   (run_raises_first_underlying_cause [migFailFirst] emptyDb).1
     (DbError.failure "boom") (by decide)⟩

/-- C4: running `run_database_migrations` twice in succession against the same
database is idempotent — after a successful first run, the whole second run is
the bootstrap only: its trace is `[ensureTable, loadApplied]` (so no
Descriptor's upgrade action is invoked), it returns without error, and it
leaves the database state — the Applied-Revision Store included — exactly as
the first run left it. -/
theorem run_twice_idempotent (s : DbState)
    (h : (run_database_migrations s).error = none) :
    run_database_migrations ((run_database_migrations s).state) =
      { state := (run_database_migrations s).state,
        trace := [Event.ensureTable, Event.loadApplied],
        error := none } := by
  clear h
  obtain ⟨cols, hcols⟩ := Option.isSome_iff_exists.mp (ensureMigrationsTable_isSome s)
  by_cases hmem : migration0001.id ∈ (ensureMigrationsTable s).appliedIds
  · have hrun : run_database_migrations s =
        { state := ensureMigrationsTable s,
          trace := [Event.ensureTable, Event.loadApplied], error := none } := by
      unfold run_database_migrations
      rw [runMigrationsWith_def, MIGRATIONS, runLoop_cons_skip hmem, runLoop_nil]
    rw [hrun]
    unfold run_database_migrations
    rw [runMigrationsWith_def, ensureMigrationsTable_of_some hcols, MIGRATIONS,
      runLoop_cons_skip hmem, runLoop_nil]
  · have hfr := migration0001_frame (ensureMigrationsTable s)
    rw [← migration0001_upgrade] at hfr
    have happ := applyScope_migration0001 (ensureMigrationsTable s) hmem
    have hrun : run_database_migrations s =
        { state := { (migration0001.upgrade (ensureMigrationsTable s)).1 with
            appliedIds := (ensureMigrationsTable s).appliedIds ++ [migration0001.id] },
          trace := [Event.ensureTable, Event.loadApplied] ++ scopeEvents migration0001.id,
          error := none } := by
      unfold run_database_migrations
      rw [runMigrationsWith_def, MIGRATIONS, runLoop_cons_ok hmem happ, runLoop_nil]
      simp
    rw [hrun]
    have hcols2 : ({ (migration0001.upgrade (ensureMigrationsTable s)).1 with
        appliedIds := (ensureMigrationsTable s).appliedIds ++ [migration0001.id] }
          : DbState).migrationsTable = some cols := by
      show ((migration0001.upgrade (ensureMigrationsTable s)).1).migrationsTable = some cols
      rw [hfr.2]
      exact hcols
    have hmem2 : migration0001.id ∈
        ({ (migration0001.upgrade (ensureMigrationsTable s)).1 with
          appliedIds := (ensureMigrationsTable s).appliedIds ++ [migration0001.id] }
            : DbState).appliedIds := by
      show migration0001.id ∈ (ensureMigrationsTable s).appliedIds ++ [migration0001.id]
      simp
    unfold run_database_migrations
    rw [runMigrationsWith_def, ensureMigrationsTable_of_some hcols2, MIGRATIONS,
      runLoop_cons_skip hmem2, runLoop_nil]

/-- Witness for C4 at the concrete empty database. -/
theorem run_twice_idempotent_witness :
    (run_database_migrations emptyDb).error = none ∧
    run_database_migrations ((run_database_migrations emptyDb).state) =
      { state := (run_database_migrations emptyDb).state,
        trace := [Event.ensureTable, Event.loadApplied],
        error := none } :=
  ⟨by decide, run_twice_idempotent emptyDb (by decide)⟩

theorem insertsScoped_ensure_load (tr : List Event) :
    insertsScoped (Event.ensureTable :: Event.loadApplied :: tr) = insertsScoped tr := rfl

/-- C9: in a successful run over a duplicate-free registry, the executor's
writes to the Applied-Revision Store are inserts and nothing else: the trace
holds no update or delete events; every inserted id was absent from the
applied set loaded at the start; each pending Descriptor's id is inserted
exactly once; and every insert sits inside its own Descriptor's savepoint
scope — immediately after that upgrade's successful end and immediately
before the same scope's commit. -/
theorem run_store_writes_are_scoped_inserts (migs : List Migration) (s : DbState)
    (hnd : (migs.map Migration.id).Nodup)
    (hok : (runMigrationsWith migs s).error = none) :
    (∀ i, Event.updateRecord i ∉ (runMigrationsWith migs s).trace ∧
          Event.deleteRecord i ∉ (runMigrationsWith migs s).trace) ∧
    (∀ i, Event.insertApplied i ∈ (runMigrationsWith migs s).trace →
          i ∉ (ensureMigrationsTable s).appliedIds) ∧
    (∀ m ∈ migs, m.id ∉ (ensureMigrationsTable s).appliedIds →
          (runMigrationsWith migs s).trace.count (Event.insertApplied m.id) = 1) ∧
    insertsScoped (runMigrationsWith migs s).trace = true := by
  rw [runMigrationsWith_error] at hok
  have htrace : (runMigrationsWith migs s).trace =
      Event.ensureTable :: Event.loadApplied ::
        expectedEvents (ensureMigrationsTable s).appliedIds migs := by
    rw [runMigrationsWith_trace, runLoop_success_trace _ _ _ hok]
  refine ⟨?_, ?_, ?_, ?_⟩
  · intro i
    have hud := runLoop_no_update_delete (ensureMigrationsTable s).appliedIds migs
      (ensureMigrationsTable s) i
    rw [runMigrationsWith_trace]
    constructor <;> simp [List.mem_cons, hud.1, hud.2]
  · intro i hi
    rw [htrace] at hi
    simp only [List.mem_cons] at hi
    rcases hi with h | h | h
    · cases h
    · cases h
    · exact (mem_insertApplied_expectedEvents _ _ _ h).1
  · intro m hm hni
    rw [htrace]
    simp only [List.count_cons]
    rw [count_insertApplied_expectedEvents _ _ hnd m hm hni]
    simp
  · rw [htrace, insertsScoped_ensure_load]
    exact insertsScoped_expectedEvents _ _

/-- Witness for C9: a two-entry registry of fresh no-op Descriptors on the
empty database. -/
theorem run_store_writes_are_scoped_inserts_witness :
    (([migNoopA, migNoopB].map Migration.id).Nodup ∧
     (runMigrationsWith [migNoopA, migNoopB] emptyDb).error = none) ∧
    ((∀ i, Event.updateRecord i ∉ (runMigrationsWith [migNoopA, migNoopB] emptyDb).trace ∧
           Event.deleteRecord i ∉ (runMigrationsWith [migNoopA, migNoopB] emptyDb).trace) ∧
     (∀ i, Event.insertApplied i ∈ (runMigrationsWith [migNoopA, migNoopB] emptyDb).trace →
           i ∉ (ensureMigrationsTable emptyDb).appliedIds) ∧
     (∀ m ∈ [migNoopA, migNoopB], m.id ∉ (ensureMigrationsTable emptyDb).appliedIds →
           (runMigrationsWith [migNoopA, migNoopB] emptyDb).trace.count
             (Event.insertApplied m.id) = 1) ∧
     insertsScoped (runMigrationsWith [migNoopA, migNoopB] emptyDb).trace = true) :=
  ⟨⟨by decide, by decide⟩,
   run_store_writes_are_scoped_inserts [migNoopA, migNoopB] emptyDb (by decide) (by decide)⟩

/-- An initially-unmigrated database for the race scenario: no tracking
table, a `users` table with one unrelated column. -/
def raceDb : DbState :=
  { migrationsTable := none, appliedIds := [], usersColumns := ["user_id"] }

/-- C1 counterexample: two concurrent `run` invocations against the
initially-unmigrated `raceDb`, interleaved so that both load an empty applied
set before either commits.  Process A finishes without error; process B's
record-insert hits the unique-constraint violation and its `run` re-raises it
— B terminates WITH an error instead of proceeding to the next Descriptor, so
the claim that both invocations terminate without error is false.  (The store
does end with exactly one row per Registry entry.) -/
theorem concurrent_losing_run_raises :
    (raceRun MIGRATIONS raceSchedule
      { db := raceDb, procA := .start, procB := .start }).procA.outcome = some none ∧
    (raceRun MIGRATIONS raceSchedule
      { db := raceDb, procA := .start, procB := .start }).procB.outcome =
        some (some (DbError.uniqueViolation "schema_migrations"
          "0001_add_channel_subscription_fields")) ∧
    (raceRun MIGRATIONS raceSchedule
      { db := raceDb, procA := .start, procB := .start }).procB.outcome ≠ some none ∧
    (raceRun MIGRATIONS raceSchedule
      { db := raceDb, procA := .start, procB := .start }).db.appliedIds =
      ["0001_add_channel_subscription_fields"] := by
  refine ⟨?_, ?_, ?_, ?_⟩ <;> decide

theorem raceStep_A (migs : List Migration) (st : RaceState) :
    raceStep migs st false =
      { db := (procStep migs st.db st.procA).1,
        procA := (procStep migs st.db st.procA).2,
        procB := st.procB } := rfl

theorem raceStep_B (migs : List Migration) (st : RaceState) :
    raceStep migs st true =
      { db := (procStep migs st.db st.procB).1,
        procA := st.procA,
        procB := (procStep migs st.db st.procB).2 } := rfl

theorem procStep_apply_ok {m : Migration} {applied : List String}
    {db db' : DbState} (migs : List Migration) (h : m.id ∉ applied)
    (ha : applyScope m db = (db', none)) (rest : List Migration) :
    procStep migs db (.loaded applied (m :: rest)) = (db', .loaded applied rest) := by
  unfold procStep
  dsimp only
  rw [if_neg h, ha]

theorem procStep_apply_fail {m : Migration} {applied : List String}
    {db db' : DbState} {e : DbError} (migs : List Migration) (h : m.id ∉ applied)
    (ha : applyScope m db = (db', some e)) (rest : List Migration) :
    procStep migs db (.loaded applied (m :: rest)) = (db, .failed e) := by
  unfold procStep
  dsimp only
  rw [if_neg h, ha]

/-- C1 (amended): under the §5 race — both processes load an empty applied set
from an initially-unmigrated database before either commits — the Executor
does roll back the losing scope (the loser's step leaves the shared database
exactly as the winner left it) and the store ends with exactly one row per
Registry entry; but the losing invocation does not proceed to the next
Descriptor as if the id were applied: it re-raises the unique-constraint
violation and terminates with that error, while only the winner terminates
without error. -/
theorem race_loser_rolls_back_and_raises (db : DbState)
    (h : db.migrationsTable = none) :
    (raceRun MIGRATIONS raceSchedule
      { db := db, procA := .start, procB := .start }).procA.outcome = some none ∧
    (raceRun MIGRATIONS raceSchedule
      { db := db, procA := .start, procB := .start }).procB.outcome =
        some (some (DbError.uniqueViolation "schema_migrations"
          "0001_add_channel_subscription_fields")) ∧
    (raceRun MIGRATIONS raceSchedule
      { db := db, procA := .start, procB := .start }).db.appliedIds =
      ["0001_add_channel_subscription_fields"] ∧
    (raceRun MIGRATIONS raceSchedule
      { db := db, procA := .start, procB := .start }).db =
      (raceRun MIGRATIONS [false, false, true, true, false]
        { db := db, procA := .start, procB := .start }).db := by
  obtain ⟨mt, ai, uc⟩ := db
  simp only at h
  subst h
  have hens : ensureMigrationsTable ⟨none, ai, uc⟩ =
      ⟨some schemaMigrationsColumns, [], uc⟩ := rfl
  have hsc := applyScope_migration0001 (⟨some schemaMigrationsColumns, [], uc⟩ : DbState)
    (by simp)
  have hmemdb2 : migration0001.id ∈
      ({ (migration0001.upgrade (⟨some schemaMigrationsColumns, [], uc⟩ : DbState)).1 with
        appliedIds := (⟨some schemaMigrationsColumns, [], uc⟩ : DbState).appliedIds ++
          [migration0001.id] } : DbState).appliedIds := by
    simp
  have hmm := migration0001_mem (⟨some schemaMigrationsColumns, [], uc⟩ : DbState)
  rw [← migration0001_upgrade] at hmm
  have hfail := applyScope_migration0001_dup
    ({ (migration0001.upgrade (⟨some schemaMigrationsColumns, [], uc⟩ : DbState)).1 with
      appliedIds := (⟨some schemaMigrationsColumns, [], uc⟩ : DbState).appliedIds ++
        [migration0001.id] } : DbState)
    hmemdb2 hmm.1 hmm.2.1 hmm.2.2
  have h1 : raceStep MIGRATIONS ⟨⟨none, ai, uc⟩, .start, .start⟩ false =
      ⟨⟨some schemaMigrationsColumns, [], uc⟩, .ensured, .start⟩ := rfl
  have h2 : raceStep MIGRATIONS
      ⟨⟨some schemaMigrationsColumns, [], uc⟩, .ensured, .start⟩ false =
      ⟨⟨some schemaMigrationsColumns, [], uc⟩, .loaded [] [migration0001], .start⟩ := rfl
  have h3 : raceStep MIGRATIONS
      ⟨⟨some schemaMigrationsColumns, [], uc⟩, .loaded [] [migration0001], .start⟩ true =
      ⟨⟨some schemaMigrationsColumns, [], uc⟩, .loaded [] [migration0001], .ensured⟩ := rfl
  have h4 : raceStep MIGRATIONS
      ⟨⟨some schemaMigrationsColumns, [], uc⟩, .loaded [] [migration0001], .ensured⟩ true =
      ⟨⟨some schemaMigrationsColumns, [], uc⟩,
        .loaded [] [migration0001], .loaded [] [migration0001]⟩ := rfl
  have h5 : raceStep MIGRATIONS
      ⟨⟨some schemaMigrationsColumns, [], uc⟩,
        .loaded [] [migration0001], .loaded [] [migration0001]⟩ false =
      ⟨{ (migration0001.upgrade (⟨some schemaMigrationsColumns, [], uc⟩ : DbState)).1 with
          appliedIds := (⟨some schemaMigrationsColumns, [], uc⟩ : DbState).appliedIds ++
            [migration0001.id] },
        .loaded [] [], .loaded [] [migration0001]⟩ := by
    rw [raceStep_A, procStep_apply_ok MIGRATIONS (by simp) hsc []]
  have h6 : raceStep MIGRATIONS
      ⟨{ (migration0001.upgrade (⟨some schemaMigrationsColumns, [], uc⟩ : DbState)).1 with
          appliedIds := (⟨some schemaMigrationsColumns, [], uc⟩ : DbState).appliedIds ++
            [migration0001.id] },
        .loaded [] [], .loaded [] [migration0001]⟩ true =
      ⟨{ (migration0001.upgrade (⟨some schemaMigrationsColumns, [], uc⟩ : DbState)).1 with
          appliedIds := (⟨some schemaMigrationsColumns, [], uc⟩ : DbState).appliedIds ++
            [migration0001.id] },
        .loaded [] [], .failed (DbError.uniqueViolation "schema_migrations"
          migration0001.id)⟩ := by
    rw [raceStep_B, procStep_apply_fail MIGRATIONS (by simp) hfail []]
  have h7 : raceStep MIGRATIONS
      ⟨{ (migration0001.upgrade (⟨some schemaMigrationsColumns, [], uc⟩ : DbState)).1 with
          appliedIds := (⟨some schemaMigrationsColumns, [], uc⟩ : DbState).appliedIds ++
            [migration0001.id] },
        .loaded [] [], .failed (DbError.uniqueViolation "schema_migrations"
          migration0001.id)⟩ false =
      ⟨{ (migration0001.upgrade (⟨some schemaMigrationsColumns, [], uc⟩ : DbState)).1 with
          appliedIds := (⟨some schemaMigrationsColumns, [], uc⟩ : DbState).appliedIds ++
            [migration0001.id] },
        .finished, .failed (DbError.uniqueViolation "schema_migrations"
          migration0001.id)⟩ := rfl
  have hrun : raceRun MIGRATIONS raceSchedule ⟨⟨none, ai, uc⟩, .start, .start⟩ =
      ⟨{ (migration0001.upgrade (⟨some schemaMigrationsColumns, [], uc⟩ : DbState)).1 with
          appliedIds := (⟨some schemaMigrationsColumns, [], uc⟩ : DbState).appliedIds ++
            [migration0001.id] },
        .finished, .failed (DbError.uniqueViolation "schema_migrations"
          migration0001.id)⟩ := by
    unfold raceRun raceSchedule
    rw [List.foldl_cons, h1, List.foldl_cons, h2, List.foldl_cons, h3,
      List.foldl_cons, h4, List.foldl_cons, h5, List.foldl_cons, h6,
      List.foldl_cons, h7, List.foldl_nil]
  have hrun5 : raceRun MIGRATIONS [false, false, true, true, false]
      ⟨⟨none, ai, uc⟩, .start, .start⟩ =
      ⟨{ (migration0001.upgrade (⟨some schemaMigrationsColumns, [], uc⟩ : DbState)).1 with
          appliedIds := (⟨some schemaMigrationsColumns, [], uc⟩ : DbState).appliedIds ++
            [migration0001.id] },
        .loaded [] [], .loaded [] [migration0001]⟩ := by
    unfold raceRun
    rw [List.foldl_cons, h1, List.foldl_cons, h2, List.foldl_cons, h3,
      List.foldl_cons, h4, List.foldl_cons, h5, List.foldl_nil]
  rw [hrun, hrun5]
  refine ⟨rfl, rfl, ?_, rfl⟩
  simp [migration0001_id]

/-- Witness for the amended C1 at the concrete initially-unmigrated `raceDb`. -/
theorem race_loser_rolls_back_and_raises_witness :
    raceDb.migrationsTable = none ∧
    ((raceRun MIGRATIONS raceSchedule
      { db := raceDb, procA := .start, procB := .start }).procA.outcome = some none ∧
    (raceRun MIGRATIONS raceSchedule
      { db := raceDb, procA := .start, procB := .start }).procB.outcome =
        some (some (DbError.uniqueViolation "schema_migrations"
          "0001_add_channel_subscription_fields")) ∧
    (raceRun MIGRATIONS raceSchedule
      { db := raceDb, procA := .start, procB := .start }).db.appliedIds =
      ["0001_add_channel_subscription_fields"] ∧
    (raceRun MIGRATIONS raceSchedule
      { db := raceDb, procA := .start, procB := .start }).db =
      (raceRun MIGRATIONS [false, false, true, true, false]
        { db := raceDb, procA := .start, procB := .start }).db) :=
  ⟨rfl, race_loser_rolls_back_and_raises raceDb rfl⟩

end Migrator
